import Mathlib

/-!
Verification of the `stellar_client` payment-streaming contracts.

The repository contains two structurally similar Soroban contracts:

* `src/contracts/nft-stream/src/lib.rs` — streams with a transferable
  ownership deed (`StreamOwnershipRecord`); operations: `create_stream`,
  `transfer_stream`, `claim`, `cancel_stream`, `get_stream`, plus the pure
  helpers `calculate_vested` and `calculate_claimable`.
* `src/contracts/payment-stream/src/lib.rs` — plain streams; operations:
  `create_stream`, `get_stream`, `withdrawable_amount`, `withdraw`,
  `withdraw_max`, `pause_stream`, `resume_stream`, `cancel_stream`.

Embedding conventions:
* Soroban `Address` values are opaque — modelled as `Nat`.
* `u64` timestamps are modelled as `Nat` (all subtractions in the source are
  guarded so that Nat subtraction agrees with the machine subtraction).
* `i128` amounts are modelled as `Int`; Rust `/` on `i128` truncates toward
  zero, which is `Int.tdiv`.
* `require_auth` and event emission are external host effects with no effect
  on contract state; they are omitted.
* Token movements (`token_client.transfer(from, to, amount)`) are returned
  explicitly as `Transfer` legs.
* Each contract entry point loads one stream (and, for the deed variant, its
  ownership record) from storage, mutates it, and stores it back; the
  per-stream functions below take that record as an argument and return the
  updated record.  Failures (`Err`/`panic_with_error`) are `Except.error`,
  and a failing call stores nothing, which `exec` reflects by returning the
  input state unchanged.
-/

deriving instance DecidableEq for Except

namespace StellarClient

/-- Addresses are opaque identifiers on the host; modelled as `Nat`. -/
abbrev Address := Nat

/-- The address of the stream contract itself (`env.current_contract_address()`). -/
def contractAddress : Address := 0

/-- One token-transfer leg `transfer(src, dst, amount)` issued to the token client. -/
structure Transfer where
  src : Address
  dst : Address
  amount : Int
deriving DecidableEq, Repr

/-- Total amount paid to address `a` by a list of transfer legs. -/
def paidTo (legs : List Transfer) (a : Address) : Int :=
  (legs.filter (fun l => l.dst == a)).foldl (fun acc l => acc + l.amount) 0

namespace NftStream

/-- Errors of `nft-stream` (`contracterror Error`, lib.rs lines 6–20). -/
inductive Error
  | AlreadyInit
  | InvalidAmount
  | InvalidTimeRange
  | InvalidStartTime
  | StreamNotFound
  | StreamNotActive
  | StreamNotTransferable
  | OwnershipRecordNotFound
  | NoTokensToClaim
  | Unauthorized
deriving DecidableEq, Repr

/-- `StreamStatus` of nft-stream (lib.rs lines 22–29). -/
inductive StreamStatus
  | Active
  | Paused
  | Canceled
  | Completed
deriving DecidableEq, Repr

/-- `Stream` of nft-stream (lib.rs lines 31–45). -/
structure Stream where
  id : Nat
  sender : Address
  recipient : Address
  token : Address
  total_amount : Int
  withdrawn_amount : Int
  start_time : Nat
  end_time : Nat
  status : StreamStatus
  transferable : Bool
  ownership_id : Nat
deriving DecidableEq, Repr

/-- `StreamOwnershipRecord` of nft-stream (lib.rs lines 47–53). -/
structure StreamOwnershipRecord where
  stream_id : Nat
  owner : Address
  minted_at : Nat
deriving DecidableEq, Repr

/-- `calculate_vested` (lib.rs lines 433–446).  Rust `i128` division
truncates toward zero, hence `Int.tdiv`. -/
def calculate_vested (stream : Stream) (current_time : Nat) : Int :=
  if current_time < stream.start_time then
    0
  else if current_time ≥ stream.end_time then
    stream.total_amount
  else
    let elapsed : Nat := current_time - stream.start_time
    let duration : Nat := stream.end_time - stream.start_time
    Int.tdiv (stream.total_amount * (elapsed : Int)) ((duration : Int))

/-- `calculate_claimable` (lib.rs lines 448–451). -/
def calculate_claimable (stream : Stream) (current_time : Nat) : Int :=
  calculate_vested stream current_time - stream.withdrawn_amount

/-- `mint_ownership_record` (lib.rs lines 405–431): increments the ownership
counter and creates the deed.  Returns the new counter value (also the new
ownership id) and the record. -/
def mint_ownership_record (recipient : Address) (stream_id : Nat) (now : Nat)
    (ownership_counter : Nat) : Nat × StreamOwnershipRecord :=
  (ownership_counter + 1,
   { stream_id := stream_id, owner := recipient, minted_at := now })

/-- `create_stream` (lib.rs lines 132–203).  `now` is `env.ledger().timestamp()`;
the counters are the stored `StreamCounter` / `OwnershipCounter` values.  On
success it returns the stored stream, the minted deed, and the escrow leg
`transfer(sender, contract, total_amount)`. -/
def create_stream (sender recipient token : Address) (total_amount : Int)
    (start_time end_time : Nat) (transferable : Bool) (now : Nat)
    (stream_counter ownership_counter : Nat) :
    Except Error (Stream × StreamOwnershipRecord × Transfer) :=
  if total_amount ≤ 0 then
    .error .InvalidAmount
  else if start_time ≥ end_time then
    .error .InvalidTimeRange
  else if start_time < now then
    .error .InvalidStartTime
  else
    let new_stream_id := stream_counter + 1
    let minted := mint_ownership_record recipient new_stream_id now ownership_counter
    let stream : Stream :=
      { id := new_stream_id
        sender := sender
        recipient := recipient
        token := token
        total_amount := total_amount
        withdrawn_amount := 0
        start_time := start_time
        end_time := end_time
        status := .Active
        transferable := transferable
        ownership_id := minted.1 }
    .ok (stream, minted.2, ⟨sender, contractAddress, total_amount⟩)

/-- `transfer_stream` (lib.rs lines 205–253).  `ownership_record` is the deed
loaded via `stream.ownership_id`; `ownership_record.owner.require_auth()` is
the external authorization step.  On success both the stream's `recipient`
and the deed's `owner` are set to `new_recipient`. -/
def transfer_stream (stream : Stream) (ownership_record : StreamOwnershipRecord)
    (new_recipient : Address) :
    Except Error (Stream × StreamOwnershipRecord) :=
  if stream.status ≠ .Active then
    .error .StreamNotActive
  else if ¬ stream.transferable then
    .error .StreamNotTransferable
  else
    .ok ({ stream with recipient := new_recipient },
         { ownership_record with owner := new_recipient })

/-- `claim` (lib.rs lines 255–305).  Pays `calculate_claimable` to the deed
owner, adds it to `withdrawn_amount`, and marks the stream `Completed` when
`withdrawn_amount >= total_amount`. -/
def claim (stream : Stream) (ownership_record : StreamOwnershipRecord)
    (current_time : Nat) : Except Error (Stream × Transfer) :=
  if stream.status ≠ .Active then
    .error .StreamNotActive
  else
    let claimable := calculate_claimable stream current_time
    if claimable ≤ 0 then
      .error .NoTokensToClaim
    else
      let s1 := { stream with withdrawn_amount := stream.withdrawn_amount + claimable }
      let s2 := if s1.withdrawn_amount ≥ s1.total_amount
                then { s1 with status := StreamStatus.Completed } else s1
      .ok (s2, ⟨contractAddress, ownership_record.owner, claimable⟩)

/-- `cancel_stream` (lib.rs lines 307–366).  Note: the source pays the FULL
`calculate_vested` amount to the deed owner (it does not subtract
`withdrawn_amount`), then refunds `total_amount - vested` to the sender. -/
def cancel_stream (stream : Stream) (ownership_record : StreamOwnershipRecord)
    (current_time : Nat) : Except Error (Stream × List Transfer) :=
  if stream.status ≠ .Active then
    .error .StreamNotActive
  else
    let vested := calculate_vested stream current_time
    let refund_amount := stream.total_amount - vested
    let payout_leg : List Transfer :=
      if vested > 0 then [⟨contractAddress, ownership_record.owner, vested⟩] else []
    let refund_leg : List Transfer :=
      if refund_amount > 0 then [⟨contractAddress, stream.sender, refund_amount⟩] else []
    .ok ({ stream with status := .Canceled }, payout_leg ++ refund_leg)

/-- `get_stream` (lib.rs lines 368–373): persistent-storage lookup, erring
with `StreamNotFound` when the key is absent.  Storage is modelled as an
association list from stream id to stream. -/
def get_stream (streams : List (Nat × Stream)) (stream_id : Nat) :
    Except Error Stream :=
  match streams.find? (fun p => p.1 == stream_id) with
  | some p => .ok p.2
  | none => .error .StreamNotFound

/-- The public mutating operations of nft-stream on one stream and its deed
(`create_stream` allocates a fresh stream and is treated separately). -/
inductive Op
  | claimOp (now : Nat)
  | transferOp (new_recipient : Address)
  | cancelOp (now : Nat)

/-- Result state of one operation: the stored stream/deed on success, the
unchanged input on failure (a failing call stores nothing). -/
def exec (op : Op) (q : Stream × StreamOwnershipRecord) :
    Stream × StreamOwnershipRecord :=
  match op with
  | .claimOp now =>
      match claim q.1 q.2 now with
      | .ok (s, _) => (s, q.2)
      | .error _ => q
  | .transferOp a =>
      match transfer_stream q.1 q.2 a with
      | .ok (s, r) => (s, r)
      | .error _ => q
  | .cancelOp now =>
      match cancel_stream q.1 q.2 now with
      | .ok (s, _) => (s, q.2)
      | .error _ => q

/-- State after a sequence of operations. -/
def execList (ops : List Op) (q : Stream × StreamOwnershipRecord) :
    Stream × StreamOwnershipRecord :=
  ops.foldl (fun p o => exec o p) q

/-- Well-formedness established at creation: positive amount, ordered window. -/
def WF (s : Stream) : Prop :=
  0 < s.total_amount ∧ s.start_time < s.end_time

/-- The spec's per-stream invariant (§3): bounded withdrawal, and `Completed`
only at full withdrawal. -/
def Inv (s : Stream) : Prop :=
  0 ≤ s.withdrawn_amount ∧ s.withdrawn_amount ≤ s.total_amount ∧
    (s.status = .Completed → s.withdrawn_amount = s.total_amount)

end NftStream

namespace PaymentStream

/-- Errors of `payment-stream` (`contracterror Error`, lib.rs lines 33–49). -/
inductive Error
  | AlreadyInit
  | NotInit
  | Unauthorized
  | InvalidAmount
  | InvalidTimeRange
  | StreamNotFound
  | StreamNotActive
  | StreamNotPaused
  | StreamCannotBeCanceled
  | InsufficientWithdrawable
  | TransferFailed
deriving DecidableEq, Repr

/-- `StreamStatus` of payment-stream (lib.rs lines 9–16). -/
inductive StreamStatus
  | Active
  | Paused
  | Canceled
  | Completed
deriving DecidableEq, Repr

/-- `Stream` of payment-stream (lib.rs lines 18–31). -/
structure Stream where
  id : Nat
  sender : Address
  recipient : Address
  token : Address
  total_amount : Int
  withdrawn_amount : Int
  start_time : Nat
  end_time : Nat
  status : StreamStatus
deriving DecidableEq, Repr

/-- `create_stream` (lib.rs lines 71–119).  The source `panic_with_error`s;
panics are modelled as `Except.error`.  `stream_count` is the stored
`stream_count` counter.  NOTE: unlike nft-stream, there is no check of
`start_time` against the ledger timestamp — the function never reads the
clock.  On success it returns the stored stream and the escrow leg. -/
def create_stream (sender recipient token : Address) (total_amount : Int)
    (start_time end_time : Nat) (stream_count : Nat) :
    Except Error (Stream × Transfer) :=
  if total_amount ≤ 0 then
    .error .InvalidAmount
  else if end_time ≤ start_time then
    .error .InvalidTimeRange
  else
    .ok ({ id := stream_count + 1
           sender := sender
           recipient := recipient
           token := token
           total_amount := total_amount
           withdrawn_amount := 0
           start_time := start_time
           end_time := end_time
           status := .Active },
         ⟨sender, contractAddress, total_amount⟩)

/-- `get_stream` (lib.rs lines 122–129): returns `Option`, with `none` (not
an error) when the key is absent.  The TTL bump has no logical effect. -/
def get_stream (streams : List (Nat × Stream)) (stream_id : Nat) :
    Option Stream :=
  match streams.find? (fun p => p.1 == stream_id) with
  | some p => some p.2
  | none => none

/-- `withdrawable_amount` (lib.rs lines 132–158), on a loaded stream (the
`StreamNotFound` panic happens at the storage lookup).  Division of `i128`
truncates toward zero, hence `Int.tdiv`. -/
def withdrawable_amount (stream : Stream) (current_time : Nat) : Int :=
  if stream.status ≠ .Active then
    0
  else if current_time ≤ stream.start_time then
    0
  else
    let elapsed : Nat :=
      if current_time ≥ stream.end_time then stream.end_time - stream.start_time
      else current_time - stream.start_time
    let duration : Nat := stream.end_time - stream.start_time
    let vested : Int := Int.tdiv (stream.total_amount * (elapsed : Int)) ((duration : Int))
    vested - stream.withdrawn_amount

/-- `withdraw` (lib.rs lines 161–186).  Pays `amount` to the recipient when
`0 < amount ≤ withdrawable_amount`, and marks the stream `Completed` when
`withdrawn_amount >= total_amount`. -/
def withdraw (stream : Stream) (current_time : Nat) (amount : Int) :
    Except Error (Stream × Transfer) :=
  let available := withdrawable_amount stream current_time
  if amount > available ∨ amount ≤ 0 then
    .error .InsufficientWithdrawable
  else
    let s1 := { stream with withdrawn_amount := stream.withdrawn_amount + amount }
    let s2 := if s1.withdrawn_amount ≥ s1.total_amount
              then { s1 with status := StreamStatus.Completed } else s1
    .ok (s2, ⟨contractAddress, stream.recipient, amount⟩)

/-- `withdraw_max` (lib.rs lines 189–195). -/
def withdraw_max (stream : Stream) (current_time : Nat) :
    Except Error (Stream × Transfer) :=
  let available := withdrawable_amount stream current_time
  if available ≤ 0 then
    .error .InsufficientWithdrawable
  else
    withdraw stream current_time available

/-- `pause_stream` (lib.rs lines 198–212). -/
def pause_stream (stream : Stream) : Except Error Stream :=
  if stream.status ≠ .Active then
    .error .StreamNotActive
  else
    .ok { stream with status := .Paused }

/-- `resume_stream` (lib.rs lines 215–229). -/
def resume_stream (stream : Stream) : Except Error Stream :=
  if stream.status ≠ .Paused then
    .error .StreamNotPaused
  else
    .ok { stream with status := .Active }

/-- `cancel_stream` (lib.rs lines 232–253).  Allowed from `Active` or
`Paused`; refunds `total_amount - withdrawn_amount` entirely to the sender
(the recipient receives nothing at cancellation in this variant). -/
def cancel_stream (stream : Stream) : Except Error (Stream × List Transfer) :=
  if stream.status ≠ .Active ∧ stream.status ≠ .Paused then
    .error .StreamCannotBeCanceled
  else
    let remaining := stream.total_amount - stream.withdrawn_amount
    .ok ({ stream with status := .Canceled },
         if remaining > 0 then [⟨contractAddress, stream.sender, remaining⟩] else [])

/-- The public mutating operations of payment-stream on one existing stream
(`create_stream` allocates a fresh stream and is treated separately). -/
inductive Op
  | withdrawOp (now : Nat) (amount : Int)
  | withdrawMaxOp (now : Nat)
  | pauseOp
  | resumeOp
  | cancelOp

/-- Result state of one operation: the stored stream on success, the
unchanged input on failure (a failing call stores nothing). -/
def exec (op : Op) (s : Stream) : Stream :=
  match op with
  | .withdrawOp now amount =>
      match withdraw s now amount with
      | .ok (s1, _) => s1
      | .error _ => s
  | .withdrawMaxOp now =>
      match withdraw_max s now with
      | .ok (s1, _) => s1
      | .error _ => s
  | .pauseOp =>
      match pause_stream s with
      | .ok s1 => s1
      | .error _ => s
  | .resumeOp =>
      match resume_stream s with
      | .ok s1 => s1
      | .error _ => s
  | .cancelOp =>
      match cancel_stream s with
      | .ok (s1, _) => s1
      | .error _ => s

/-- State after a sequence of operations. -/
def execList (ops : List Op) (s : Stream) : Stream :=
  ops.foldl (fun t o => exec o t) s

/-- Well-formedness established at creation: positive amount, ordered window. -/
def WF (s : Stream) : Prop :=
  0 < s.total_amount ∧ s.start_time < s.end_time

/-- The spec's per-stream invariant (§3): bounded withdrawal, and `Completed`
only at full withdrawal. -/
def Inv (s : Stream) : Prop :=
  0 ≤ s.withdrawn_amount ∧ s.withdrawn_amount ≤ s.total_amount ∧
    (s.status = .Completed → s.withdrawn_amount = s.total_amount)

end PaymentStream

/-! Concrete streams used as counterexamples and witnesses.  They mirror the
spec's running scenario (§8): `total_amount = 1000`, `start = 0`, `end = 100`,
sender address 1, recipient/deed-owner address 2, token address 5. -/

/-- nft-stream deed for stream 1, owned by address 2. -/
def exRecord : NftStream.StreamOwnershipRecord :=
  { stream_id := 1, owner := 2, minted_at := 0 }

/-- Freshly created nft-stream stream (nothing withdrawn yet). -/
def exNftFresh : NftStream.Stream :=
  { id := 1, sender := 1, recipient := 2, token := 5, total_amount := 1000,
    withdrawn_amount := 0, start_time := 0, end_time := 100,
    status := .Active, transferable := true, ownership_id := 1 }

/-- nft-stream stream after 300 units have already been claimed. -/
def exNftPart : NftStream.Stream :=
  { exNftFresh with withdrawn_amount := 300 }

/-- nft-stream stream in status `Paused` (the status value exists in the
enum even though nft-stream has no pause operation). -/
def exNftPaused : NftStream.Stream :=
  { exNftFresh with status := .Paused }

/-- Non-transferable nft-stream stream that has been canceled. -/
def exNftCanceledNT : NftStream.Stream :=
  { exNftFresh with status := .Canceled, transferable := false }

/-- Freshly created payment-stream stream. -/
def exPayFresh : PaymentStream.Stream :=
  { id := 1, sender := 1, recipient := 2, token := 5, total_amount := 1000,
    withdrawn_amount := 0, start_time := 0, end_time := 100,
    status := .Active }

/-- payment-stream stream after a `withdraw(300)`. -/
def exPayPart : PaymentStream.Stream :=
  { exPayFresh with withdrawn_amount := 300 }

/-- Paused payment-stream stream. -/
def exPayPaused : PaymentStream.Stream :=
  { exPayFresh with status := .Paused }

/-- Canceled payment-stream stream. -/
def exPayCanceled : PaymentStream.Stream :=
  { exPayFresh with status := .Canceled }

/-! ## Helper lemmas -/

/-- Truncating division of a proportional share: for `0 ≤ total` and
`e ≤ d`, `(total * e).tdiv d` lies in `[0, total]`. -/
theorem tdivShareBounds (total : Int) (e d : Nat) (htot : 0 ≤ total)
    (hed : e ≤ d) (hd : 0 < d) :
    0 ≤ Int.tdiv (total * (e : Int)) ((d : Int)) ∧
      Int.tdiv (total * (e : Int)) ((d : Int)) ≤ total := by
  have he0 : (0 : Int) ≤ (e : Int) := Int.natCast_nonneg e
  have hd0 : (0 : Int) < (d : Int) := by exact_mod_cast hd
  have hnum : (0 : Int) ≤ total * (e : Int) := mul_nonneg htot he0
  constructor
  · exact Int.tdiv_nonneg hnum (le_of_lt hd0)
  · rw [Int.tdiv_eq_ediv hnum (le_of_lt hd0)]
    calc total * (e : Int) / (d : Int)
        ≤ total * (d : Int) / (d : Int) :=
          Int.ediv_le_ediv hd0
            (mul_le_mul_of_nonneg_left (by exact_mod_cast hed) htot)
      _ = total := Int.mul_ediv_cancel total (ne_of_gt hd0)

/-- `calculate_vested` stays within `[0, total_amount]` when the total is
nonnegative. -/
theorem nft_vested_bounds (s : NftStream.Stream) (t : Nat)
    (h : 0 ≤ s.total_amount) :
    0 ≤ NftStream.calculate_vested s t ∧
      NftStream.calculate_vested s t ≤ s.total_amount := by
  unfold NftStream.calculate_vested
  split
  · exact ⟨le_refl 0, h⟩
  next h1 =>
    split
    · exact ⟨h, le_refl _⟩
    next h2 =>
      exact tdivShareBounds s.total_amount (t - s.start_time)
        (s.end_time - s.start_time) h (by omega) (by omega)

/-- `withdrawable_amount` never exceeds the unwithdrawn remainder. -/
theorem pay_withdrawable_le (s : PaymentStream.Stream) (t : Nat)
    (htot : 0 ≤ s.total_amount) (hse : s.start_time < s.end_time)
    (hwt : s.withdrawn_amount ≤ s.total_amount) :
    PaymentStream.withdrawable_amount s t ≤
      s.total_amount - s.withdrawn_amount := by
  unfold PaymentStream.withdrawable_amount
  split
  · omega
  split
  · omega
  next h1 h2 =>
    have hb := tdivShareBounds s.total_amount
      (if t ≥ s.end_time then s.end_time - s.start_time else t - s.start_time)
      (s.end_time - s.start_time) htot (by split <;> omega) (by omega)
    simp only []
    linarith [hb.2]

/-! ## Claim theorems -/

/-- Claim C1: a successful cancel should pay only the unclaimed vested portion
(`vested - withdrawn_amount`) to the owner and refund `total_amount - vested`
to the sender, so that `withdrawn_amount + paid_to_owner + refund =
total_amount` exactly.  Evaluating the code at the spec's own scenario
(`total = 1000`, window `[0, 100)`, `withdrawn = 300`, cancel at time 50)
shows the nft-stream variant pays the FULL vested amount (500, not the
unclaimed 200) to the owner, so the three parts sum to 1300, not 1000,
double-counting the 300 already withdrawn; the payment-stream variant keeps
the sum exact but pays the unclaimed vested portion to the sender and nothing
to the owner. -/
theorem c1_cancel_split_eval :
    NftStream.cancel_stream exNftPart exRecord 50 =
      .ok ({ exNftPart with status := .Canceled },
           [⟨contractAddress, 2, 500⟩, ⟨contractAddress, 1, 500⟩]) ∧
    NftStream.calculate_vested exNftPart 50 - exNftPart.withdrawn_amount = 200 ∧
    exNftPart.withdrawn_amount +
        paidTo [⟨contractAddress, 2, 500⟩, ⟨contractAddress, 1, 500⟩] exRecord.owner +
        paidTo [⟨contractAddress, 2, 500⟩, ⟨contractAddress, 1, 500⟩] exNftPart.sender
      = 1300 ∧
    PaymentStream.cancel_stream exPayPart =
      .ok ({ exPayPart with status := .Canceled }, [⟨contractAddress, 1, 700⟩]) ∧
    paidTo [(⟨contractAddress, 1, 700⟩ : Transfer)] exPayPart.recipient = 0 := by
  exact ⟨by decide, by decide, by decide, by decide, by decide⟩

/-- Claim C9: for a stream id with no stored record, `get_stream` should fail
with `StreamNotFound`.  nft-stream does; payment-stream's `get_stream`
instead returns the non-error empty value `None` — even though its own test
`test_get_nonexistent_stream` is marked
`#[should_panic(expected = "StreamNotFound")]`. -/
theorem c9_get_stream_missing :
    NftStream.get_stream [] 999 = .error .StreamNotFound ∧
    PaymentStream.get_stream [] 999 = none :=
  ⟨rfl, rfl⟩

/-- Claim C2: for `start_time < end_time`, the vested amount is 0 before the
window, exactly `total_amount` from `end_time` on, and
`total_amount * (now - start) / (end - start)` with truncating division
inside the window — in nft-stream's `calculate_vested` and equally in
payment-stream's `withdrawable_amount` (which subtracts `withdrawn_amount`
from that vested value for an `Active` stream); and concretely for
`total = 1000`, window `[0, 100)`: vested(0) = 0, vested(50) = 500,
vested(100) = 1000, vested(150) = 1000. -/
theorem c2_linear_vesting (s : NftStream.Stream) (p : PaymentStream.Stream)
    (now : Nat) (hs : s.start_time < s.end_time)
    (hp : p.start_time < p.end_time) (hpA : p.status = .Active) :
    (now < s.start_time → NftStream.calculate_vested s now = 0) ∧
    (s.end_time ≤ now → NftStream.calculate_vested s now = s.total_amount) ∧
    (s.start_time ≤ now → now < s.end_time →
      NftStream.calculate_vested s now =
        Int.tdiv (s.total_amount * ((now - s.start_time : Nat) : Int))
          (((s.end_time - s.start_time : Nat) : Int))) ∧
    (now < p.start_time → PaymentStream.withdrawable_amount p now = 0) ∧
    (p.end_time ≤ now →
      PaymentStream.withdrawable_amount p now =
        p.total_amount - p.withdrawn_amount) ∧
    (p.start_time < now → now < p.end_time →
      PaymentStream.withdrawable_amount p now =
        Int.tdiv (p.total_amount * ((now - p.start_time : Nat) : Int))
          (((p.end_time - p.start_time : Nat) : Int)) - p.withdrawn_amount) ∧
    NftStream.calculate_vested exNftFresh 0 = 0 ∧
    NftStream.calculate_vested exNftFresh 50 = 500 ∧
    NftStream.calculate_vested exNftFresh 100 = 1000 ∧
    NftStream.calculate_vested exNftFresh 150 = 1000 := by
  refine ⟨?_, ?_, ?_, ?_, ?_, ?_, by decide, by decide, by decide, by decide⟩
  · intro h
    simp [NftStream.calculate_vested, h]
  · intro h
    simp [NftStream.calculate_vested, ge_iff_le, h]
    omega
  · intro h1 h2
    simp [NftStream.calculate_vested]
    omega
  · intro h
    simp [PaymentStream.withdrawable_amount, hpA]
    omega
  · intro h
    have hcap : (p.end_time - p.start_time : Nat) ≠ 0 := by omega
    have hz : ((p.end_time - p.start_time : Nat) : Int) ≠ 0 := by exact_mod_cast hcap
    simp only [PaymentStream.withdrawable_amount, hpA]
    rw [if_neg (by simp), if_neg (by omega), if_pos (by omega)]
    rw [Int.mul_tdiv_cancel _ hz]
  · intro h1 h2
    simp only [PaymentStream.withdrawable_amount, hpA]
    rw [if_neg (by simp), if_neg (by omega), if_neg (by omega)]

/-- Witness for `c2_linear_vesting` at the spec's concrete streams. -/
theorem c2_linear_vesting_witness :
    PaymentStream.withdrawable_amount exPayFresh 50 =
      Int.tdiv ((1000 : Int) * (50 : Int)) ((100 : Int)) - 0 := by
  have h := c2_linear_vesting exNftFresh exPayFresh 50 (by decide) (by decide)
    (by decide)
  exact h.2.2.2.2.2.1 (by decide) (by decide)

/-- Counterexample to claim C3: the claim requires `create` to fail with
`InvalidStartTime` whenever `start_time` is below the current ledger time,
but payment-stream's `create_stream` never reads the clock: with the ledger
at time 5 (or any time), creating a stream with `start_time = 0` succeeds. -/
theorem c3_counterexample_retroactive_create :
    PaymentStream.create_stream 1 2 5 1000 0 100 0 =
      .ok (exPayFresh, ⟨1, contractAddress, 1000⟩) := by
  decide

/-- Claim C3 (amended): both variants fail with `InvalidAmount` when
`total_amount ≤ 0` and with `InvalidTimeRange` when `start_time ≥ end_time`;
only nft-stream additionally fails with `InvalidStartTime` when
`start_time < now` — payment-stream performs no start-time check and accepts
retroactive streams.  On success both produce a stream with status `Active`,
`withdrawn_amount = 0`, and the escrow leg
`transfer(sender, contract, total_amount)`. -/
theorem c3_create_validation
    (sender recipient token : Address) (total : Int) (start endT : Nat)
    (tfer : Bool) (now sc oc : Nat) :
    (total ≤ 0 →
      NftStream.create_stream sender recipient token total start endT tfer now sc oc
          = .error .InvalidAmount ∧
      PaymentStream.create_stream sender recipient token total start endT sc
          = .error .InvalidAmount) ∧
    (0 < total → endT ≤ start →
      NftStream.create_stream sender recipient token total start endT tfer now sc oc
          = .error .InvalidTimeRange ∧
      PaymentStream.create_stream sender recipient token total start endT sc
          = .error .InvalidTimeRange) ∧
    (0 < total → start < endT → start < now →
      NftStream.create_stream sender recipient token total start endT tfer now sc oc
          = .error .InvalidStartTime) ∧
    (0 < total → start < endT → now ≤ start →
      NftStream.create_stream sender recipient token total start endT tfer now sc oc
          = .ok ({ id := sc + 1, sender := sender, recipient := recipient,
                   token := token, total_amount := total, withdrawn_amount := 0,
                   start_time := start, end_time := endT, status := .Active,
                   transferable := tfer, ownership_id := oc + 1 },
                 { stream_id := sc + 1, owner := recipient, minted_at := now },
                 ⟨sender, contractAddress, total⟩)) ∧
    (0 < total → start < endT →
      PaymentStream.create_stream sender recipient token total start endT sc
          = .ok ({ id := sc + 1, sender := sender, recipient := recipient,
                   token := token, total_amount := total, withdrawn_amount := 0,
                   start_time := start, end_time := endT, status := .Active },
                 ⟨sender, contractAddress, total⟩)) := by
  refine ⟨?_, ?_, ?_, ?_, ?_⟩
  · intro h
    constructor
    · simp [NftStream.create_stream, h]
    · simp [PaymentStream.create_stream, h]
  · intro h1 h2
    constructor
    · simp only [NftStream.create_stream]
      rw [if_neg (by omega), if_pos (by omega)]
    · simp only [PaymentStream.create_stream]
      rw [if_neg (by omega), if_pos (by omega)]
  · intro h1 h2 h3
    simp only [NftStream.create_stream]
    rw [if_neg (by omega), if_neg (by omega), if_pos (by omega)]
  · intro h1 h2 h3
    simp only [NftStream.create_stream, NftStream.mint_ownership_record]
    rw [if_neg (by omega), if_neg (by omega), if_neg (by omega)]
  · intro h1 h2
    simp only [PaymentStream.create_stream]
    rw [if_neg (by omega), if_neg (by omega)]

/-- Witness for `c3_create_validation` at concrete inputs. -/
theorem c3_create_validation_witness :
    NftStream.create_stream 1 2 5 (-7) 0 100 true 0 0 0 = .error .InvalidAmount ∧
    NftStream.create_stream 1 2 5 1000 0 100 true 0 0 0
        = .ok (exNftFresh, exRecord, ⟨1, contractAddress, 1000⟩) ∧
    PaymentStream.create_stream 1 2 5 1000 0 100 0
        = .ok (exPayFresh, ⟨1, contractAddress, 1000⟩) := by
  refine ⟨(c3_create_validation 1 2 5 (-7) 0 100 true 0 0 0).1 (by decide) |>.1,
    ?_, (c3_create_validation 1 2 5 1000 0 100 true 0 0 0).2.2.2.2
      (by decide) (by decide)⟩
  exact (c3_create_validation 1 2 5 1000 0 100 true 0 0 0).2.2.2.1
    (by decide) (by decide) (by decide)

/-- Counterexample to claim C4: the claim says cancelling a `Paused` stream
succeeds, but nft-stream's `cancel_stream` requires status `Active` and
fails with `StreamNotActive` on a `Paused` stream. -/
theorem c4_counterexample_paused_cancel :
    NftStream.cancel_stream exNftPaused exRecord 50 = .error .StreamNotActive := by
  decide

/-- Claim C4 (amended): payment-stream's cancel succeeds on `Active` or
`Paused` streams and fails with `StreamCannotBeCanceled` on `Canceled` or
`Completed` ones, leaving the record unchanged; nft-stream's cancel succeeds
only on `Active` streams and fails with `StreamNotActive` on every other
status — including `Paused`, which is in any case unreachable there since
nft-stream has no pause operation. -/
theorem c4_cancel_status_gating (p : PaymentStream.Stream)
    (s : NftStream.Stream) (r : NftStream.StreamOwnershipRecord) (now : Nat) :
    (p.status = .Active ∨ p.status = .Paused →
      PaymentStream.cancel_stream p =
        .ok ({ p with status := .Canceled },
             if p.total_amount - p.withdrawn_amount > 0
             then [⟨contractAddress, p.sender, p.total_amount - p.withdrawn_amount⟩]
             else [])) ∧
    (p.status = .Canceled ∨ p.status = .Completed →
      PaymentStream.cancel_stream p = .error .StreamCannotBeCanceled ∧
      PaymentStream.exec .cancelOp p = p) ∧
    (s.status = .Active → (NftStream.cancel_stream s r now).isOk = true) ∧
    (s.status ≠ .Active →
      NftStream.cancel_stream s r now = .error .StreamNotActive ∧
      NftStream.exec (.cancelOp now) (s, r) = (s, r)) := by
  refine ⟨?_, ?_, ?_, ?_⟩
  · intro h
    simp only [PaymentStream.cancel_stream]
    rw [if_neg (by rcases h with h | h <;> simp [h])]
  · intro h
    have hc : PaymentStream.cancel_stream p = .error .StreamCannotBeCanceled := by
      simp only [PaymentStream.cancel_stream]
      rw [if_pos (by rcases h with h | h <;> simp [h])]
    exact ⟨hc, by simp [PaymentStream.exec, hc]⟩
  · intro h
    simp [NftStream.cancel_stream, h, Except.isOk, Except.toBool]
  · intro h
    have hc : NftStream.cancel_stream s r now = .error .StreamNotActive := by
      simp [NftStream.cancel_stream, h]
    exact ⟨hc, by simp [NftStream.exec, hc]⟩

/-- Witness for `c4_cancel_status_gating` at concrete inputs. -/
theorem c4_cancel_status_gating_witness :
    PaymentStream.cancel_stream exPayPaused =
      .ok ({ exPayPaused with status := .Canceled }, [⟨contractAddress, 1, 1000⟩]) ∧
    PaymentStream.cancel_stream exPayCanceled = .error .StreamCannotBeCanceled ∧
    NftStream.cancel_stream exNftCanceledNT exRecord 50 = .error .StreamNotActive := by
  refine ⟨?_, ?_, ?_⟩
  · have h := (c4_cancel_status_gating exPayPaused exNftFresh exRecord 50).1
      (Or.inr rfl)
    simpa using h
  · exact ((c4_cancel_status_gating exPayCanceled exNftFresh exRecord 50).2.1
      (Or.inl rfl)).1
  · exact ((c4_cancel_status_gating exPayFresh exNftCanceledNT exRecord 50).2.2.2
      (by decide)).1

/-- Claim C5: `resume` on a non-`Paused` stream fails with `StreamNotPaused`,
`pause` on a non-`Active` stream fails with `StreamNotActive`, and `claim` on
a `Canceled` or `Completed` stream fails with `StreamNotActive`; each failing
call leaves the stored record unchanged. -/
theorem c5_state_machine_legality (p : PaymentStream.Stream)
    (s : NftStream.Stream) (r : NftStream.StreamOwnershipRecord) (now : Nat) :
    (p.status ≠ .Paused →
      PaymentStream.resume_stream p = .error .StreamNotPaused ∧
      PaymentStream.exec .resumeOp p = p) ∧
    (p.status ≠ .Active →
      PaymentStream.pause_stream p = .error .StreamNotActive ∧
      PaymentStream.exec .pauseOp p = p) ∧
    (s.status = .Canceled ∨ s.status = .Completed →
      NftStream.claim s r now = .error .StreamNotActive ∧
      NftStream.exec (.claimOp now) (s, r) = (s, r)) := by
  refine ⟨?_, ?_, ?_⟩
  · intro h
    have hr : PaymentStream.resume_stream p = .error .StreamNotPaused := by
      simp [PaymentStream.resume_stream, h]
    exact ⟨hr, by simp [PaymentStream.exec, hr]⟩
  · intro h
    have hr : PaymentStream.pause_stream p = .error .StreamNotActive := by
      simp [PaymentStream.pause_stream, h]
    exact ⟨hr, by simp [PaymentStream.exec, hr]⟩
  · intro h
    have hne : s.status ≠ .Active := by
      rcases h with h | h <;> simp [h]
    have hr : NftStream.claim s r now = .error .StreamNotActive := by
      simp [NftStream.claim, hne]
    exact ⟨hr, by simp [NftStream.exec, hr]⟩

/-- Witness for `c5_state_machine_legality` at concrete inputs. -/
theorem c5_state_machine_legality_witness :
    PaymentStream.resume_stream exPayFresh = .error .StreamNotPaused ∧
    PaymentStream.pause_stream exPayPaused = .error .StreamNotActive ∧
    NftStream.claim { exNftFresh with status := .Canceled } exRecord 50
        = .error .StreamNotActive := by
  refine ⟨((c5_state_machine_legality exPayFresh exNftFresh exRecord 50).1
      (by decide)).1,
    ((c5_state_machine_legality exPayPaused exNftFresh exRecord 50).2.1
      (by decide)).1,
    ((c5_state_machine_legality exPayFresh
      { exNftFresh with status := .Canceled } exRecord 50).2.2
      (Or.inl rfl)).1⟩

/-- A successful payment-stream `withdraw` only increases `withdrawn_amount`
(the amount must be strictly positive). -/
theorem pay_withdraw_mono (s : PaymentStream.Stream) (now : Nat) (amount : Int)
    (s' : PaymentStream.Stream) (tr : Transfer)
    (h : PaymentStream.withdraw s now amount = .ok (s', tr)) :
    s.withdrawn_amount ≤ s'.withdrawn_amount := by
  simp only [PaymentStream.withdraw] at h
  split at h
  · simp at h
  next hc =>
    rw [not_or, not_lt, not_le] at hc
    split at h <;>
    · simp only [Except.ok.injEq, Prod.mk.injEq] at h
      obtain ⟨h1, -⟩ := h
      subst h1
      simp only []
      omega

/-- `withdrawn_amount` never decreases across one payment-stream operation. -/
theorem pay_exec_withdrawn_mono (op : PaymentStream.Op)
    (s : PaymentStream.Stream) :
    s.withdrawn_amount ≤ (PaymentStream.exec op s).withdrawn_amount := by
  cases op with
  | withdrawOp now amount =>
      simp only [PaymentStream.exec]
      split
      next s1 tr heq => exact pay_withdraw_mono s now amount s1 tr heq
      next => exact le_refl _
  | withdrawMaxOp now =>
      simp only [PaymentStream.exec]
      split
      next s1 tr heq =>
        simp only [PaymentStream.withdraw_max] at heq
        split at heq
        · simp at heq
        · exact pay_withdraw_mono s now _ s1 tr heq
      next => exact le_refl _
  | pauseOp =>
      simp only [PaymentStream.exec, PaymentStream.pause_stream]
      split
      next s1 heq =>
        split at heq
        · simp at heq
        · simp only [Except.ok.injEq] at heq
          subst heq
          exact le_refl _
      next => exact le_refl _
  | resumeOp =>
      simp only [PaymentStream.exec, PaymentStream.resume_stream]
      split
      next s1 heq =>
        split at heq
        · simp at heq
        · simp only [Except.ok.injEq] at heq
          subst heq
          exact le_refl _
      next => exact le_refl _
  | cancelOp =>
      simp only [PaymentStream.exec, PaymentStream.cancel_stream]
      split
      next s1 tr heq =>
        split at heq
        · simp at heq
        · simp only [Except.ok.injEq, Prod.mk.injEq] at heq
          obtain ⟨h1, -⟩ := heq
          subst h1
          exact le_refl _
      next => exact le_refl _

/-- A successful nft-stream `claim` only increases `withdrawn_amount`. -/
theorem nft_claim_mono (s : NftStream.Stream)
    (r : NftStream.StreamOwnershipRecord) (now : Nat)
    (s' : NftStream.Stream) (tr : Transfer)
    (h : NftStream.claim s r now = .ok (s', tr)) :
    s.withdrawn_amount ≤ s'.withdrawn_amount := by
  simp only [NftStream.claim] at h
  split at h
  · simp at h
  · split at h
    · simp at h
    next hc =>
      rw [not_le] at hc
      split at h <;>
      · simp only [Except.ok.injEq, Prod.mk.injEq] at h
        obtain ⟨h1, -⟩ := h
        subst h1
        simp only []
        have := hc
        unfold NftStream.calculate_claimable at this ⊢
        omega

/-- `withdrawn_amount` never decreases across one nft-stream operation. -/
theorem nft_exec_withdrawn_mono (op : NftStream.Op)
    (q : NftStream.Stream × NftStream.StreamOwnershipRecord) :
    q.1.withdrawn_amount ≤ (NftStream.exec op q).1.withdrawn_amount := by
  cases op with
  | claimOp now =>
      simp only [NftStream.exec]
      split
      next s1 tr heq => exact nft_claim_mono q.1 q.2 now s1 tr heq
      next => exact le_refl _
  | transferOp a =>
      simp only [NftStream.exec, NftStream.transfer_stream]
      split
      next s1 r1 heq =>
        split at heq
        · simp at heq
        · split at heq
          · simp at heq
          · simp only [Except.ok.injEq, Prod.mk.injEq] at heq
            obtain ⟨h1, -⟩ := heq
            subst h1
            exact le_refl _
      next => exact le_refl _
  | cancelOp now =>
      simp only [NftStream.exec, NftStream.cancel_stream]
      split
      next s1 tr heq =>
        split at heq
        · simp at heq
        · simp only [Except.ok.injEq, Prod.mk.injEq] at heq
          obtain ⟨h1, -⟩ := heq
          subst h1
          exact le_refl _
      next => exact le_refl _

/-- Claim C6: across any single operation and any sequence of operations, in
either contract, a stream's `withdrawn_amount` never decreases (`create`
starts it at 0, per `c3_create_validation`). -/
theorem c6_withdrawn_monotone (op : PaymentStream.Op) (p : PaymentStream.Stream)
    (ops : List PaymentStream.Op) (nop : NftStream.Op)
    (q : NftStream.Stream × NftStream.StreamOwnershipRecord)
    (nops : List NftStream.Op) :
    p.withdrawn_amount ≤ (PaymentStream.exec op p).withdrawn_amount ∧
    p.withdrawn_amount ≤ (PaymentStream.execList ops p).withdrawn_amount ∧
    q.1.withdrawn_amount ≤ (NftStream.exec nop q).1.withdrawn_amount ∧
    q.1.withdrawn_amount ≤ (NftStream.execList nops q).1.withdrawn_amount := by
  refine ⟨pay_exec_withdrawn_mono op p, ?_, nft_exec_withdrawn_mono nop q, ?_⟩
  · induction ops generalizing p with
    | nil => exact le_refl _
    | cons o os ih =>
        exact le_trans (pay_exec_withdrawn_mono o p) (ih (PaymentStream.exec o p))
  · induction nops generalizing q with
    | nil => exact le_refl _
    | cons o os ih =>
        exact le_trans (nft_exec_withdrawn_mono o q) (ih (NftStream.exec o q))

/-- A non-`Active` payment-stream stream has nothing withdrawable. -/
theorem pay_withdrawable_nonactive (s : PaymentStream.Stream) (t : Nat)
    (h : s.status ≠ .Active) : PaymentStream.withdrawable_amount s t = 0 := by
  simp [PaymentStream.withdrawable_amount, h]

/-- A successful payment-stream `withdraw` preserves the stream invariant
and the creation-time well-formedness. -/
theorem pay_withdraw_inv (s : PaymentStream.Stream) (now : Nat) (amount : Int)
    (s' : PaymentStream.Stream) (tr : Transfer)
    (hW : PaymentStream.WF s) (hI : PaymentStream.Inv s)
    (h : PaymentStream.withdraw s now amount = .ok (s', tr)) :
    PaymentStream.Inv s' ∧ PaymentStream.WF s' := by
  obtain ⟨hpos, hse⟩ := hW
  obtain ⟨hw0, hwt, hcompl⟩ := hI
  have hle := pay_withdrawable_le s now (le_of_lt hpos) hse hwt
  simp only [PaymentStream.withdraw] at h
  split at h
  · simp at h
  next hc =>
    rw [not_or, not_lt, not_le] at hc
    obtain ⟨hc1, hc2⟩ := hc
    split at h
    next hcmp =>
      simp only [ge_iff_le] at hcmp
      simp only [Except.ok.injEq, Prod.mk.injEq] at h
      obtain ⟨h1, -⟩ := h
      subst h1
      refine ⟨⟨?_, ?_, fun _ => ?_⟩, hpos, hse⟩
      · simp only []
        linarith
      · simp only []
        linarith
      · simp only []
        linarith
    next hcmp =>
      simp only [ge_iff_le, not_le] at hcmp
      simp only [Except.ok.injEq, Prod.mk.injEq] at h
      obtain ⟨h1, -⟩ := h
      subst h1
      refine ⟨⟨?_, ?_, fun hst => ?_⟩, hpos, hse⟩
      · simp only []
        linarith
      · simp only []
        linarith
      · exfalso
        have hwt' := hcompl hst
        linarith

/-- Every payment-stream operation preserves the stream invariant and the
creation-time well-formedness. -/
theorem pay_exec_preserves (op : PaymentStream.Op) (s : PaymentStream.Stream)
    (hW : PaymentStream.WF s) (hI : PaymentStream.Inv s) :
    PaymentStream.Inv (PaymentStream.exec op s) ∧
      PaymentStream.WF (PaymentStream.exec op s) := by
  obtain ⟨hpos, hse⟩ := hW
  obtain ⟨hw0, hwt, hcompl⟩ := hI
  cases op with
  | withdrawOp now amount =>
      simp only [PaymentStream.exec]
      split
      next s1 tr heq =>
        exact pay_withdraw_inv s now amount s1 tr ⟨hpos, hse⟩ ⟨hw0, hwt, hcompl⟩ heq
      next => exact ⟨⟨hw0, hwt, hcompl⟩, hpos, hse⟩
  | withdrawMaxOp now =>
      simp only [PaymentStream.exec]
      split
      next s1 tr heq =>
        simp only [PaymentStream.withdraw_max] at heq
        split at heq
        · simp at heq
        · exact pay_withdraw_inv s now _ s1 tr ⟨hpos, hse⟩ ⟨hw0, hwt, hcompl⟩ heq
      next => exact ⟨⟨hw0, hwt, hcompl⟩, hpos, hse⟩
  | pauseOp =>
      simp only [PaymentStream.exec, PaymentStream.pause_stream]
      split
      next s1 heq =>
        split at heq
        · simp at heq
        · simp only [Except.ok.injEq] at heq
          subst heq
          exact ⟨⟨hw0, hwt, fun hst => by simp at hst⟩, hpos, hse⟩
      next => exact ⟨⟨hw0, hwt, hcompl⟩, hpos, hse⟩
  | resumeOp =>
      simp only [PaymentStream.exec, PaymentStream.resume_stream]
      split
      next s1 heq =>
        split at heq
        · simp at heq
        · simp only [Except.ok.injEq] at heq
          subst heq
          exact ⟨⟨hw0, hwt, fun hst => by simp at hst⟩, hpos, hse⟩
      next => exact ⟨⟨hw0, hwt, hcompl⟩, hpos, hse⟩
  | cancelOp =>
      simp only [PaymentStream.exec, PaymentStream.cancel_stream]
      split
      next s1 tr heq =>
        split at heq
        · simp at heq
        · simp only [Except.ok.injEq, Prod.mk.injEq] at heq
          obtain ⟨h1, -⟩ := heq
          subst h1
          exact ⟨⟨hw0, hwt, fun hst => by simp at hst⟩, hpos, hse⟩
      next => exact ⟨⟨hw0, hwt, hcompl⟩, hpos, hse⟩

/-- A successful nft-stream `claim` preserves the stream invariant and the
creation-time well-formedness. -/
theorem nft_claim_inv (s : NftStream.Stream)
    (r : NftStream.StreamOwnershipRecord) (now : Nat)
    (s' : NftStream.Stream) (tr : Transfer)
    (hW : NftStream.WF s) (hI : NftStream.Inv s)
    (h : NftStream.claim s r now = .ok (s', tr)) :
    NftStream.Inv s' ∧ NftStream.WF s' := by
  obtain ⟨hpos, hse⟩ := hW
  obtain ⟨hw0, hwt, hcompl⟩ := hI
  have hv := nft_vested_bounds s now (le_of_lt hpos)
  simp only [NftStream.claim, NftStream.calculate_claimable] at h
  split at h
  · simp at h
  next hact =>
    rw [not_not] at hact
    split at h
    · simp at h
    next hc =>
      rw [not_le] at hc
      split at h
      next hcmp =>
        simp only [ge_iff_le] at hcmp
        simp only [Except.ok.injEq, Prod.mk.injEq] at h
        obtain ⟨h1, -⟩ := h
        subst h1
        refine ⟨⟨?_, ?_, fun _ => ?_⟩, hpos, hse⟩
        · simp only []
          linarith [hv.1]
        · simp only []
          linarith [hv.2]
        · simp only []
          linarith [hv.2]
      next hcmp =>
        simp only [ge_iff_le, not_le] at hcmp
        simp only [Except.ok.injEq, Prod.mk.injEq] at h
        obtain ⟨h1, -⟩ := h
        subst h1
        refine ⟨⟨?_, ?_, fun hst => ?_⟩, hpos, hse⟩
        · simp only []
          linarith [hv.1]
        · simp only []
          linarith [hv.2]
        · exfalso
          simp only [hact] at hst
          simp at hst

/-- Every nft-stream operation preserves the stream invariant and the
creation-time well-formedness. -/
theorem nft_exec_preserves (op : NftStream.Op)
    (q : NftStream.Stream × NftStream.StreamOwnershipRecord)
    (hW : NftStream.WF q.1) (hI : NftStream.Inv q.1) :
    NftStream.Inv (NftStream.exec op q).1 ∧
      NftStream.WF (NftStream.exec op q).1 := by
  obtain ⟨hpos, hse⟩ := hW
  obtain ⟨hw0, hwt, hcompl⟩ := hI
  cases op with
  | claimOp now =>
      simp only [NftStream.exec]
      split
      next s1 tr heq =>
        exact nft_claim_inv q.1 q.2 now s1 tr ⟨hpos, hse⟩ ⟨hw0, hwt, hcompl⟩ heq
      next => exact ⟨⟨hw0, hwt, hcompl⟩, hpos, hse⟩
  | transferOp a =>
      simp only [NftStream.exec, NftStream.transfer_stream]
      split
      next s1 r1 heq =>
        split at heq
        · simp at heq
        next hact =>
          rw [not_not] at hact
          split at heq
          · simp at heq
          · simp only [Except.ok.injEq, Prod.mk.injEq] at heq
            obtain ⟨h1, -⟩ := heq
            subst h1
            exact ⟨⟨hw0, hwt, fun hst => by rw [show ({ q.1 with recipient := a } : NftStream.Stream).status = q.1.status from rfl, hact] at hst; simp at hst⟩, hpos, hse⟩
      next => exact ⟨⟨hw0, hwt, hcompl⟩, hpos, hse⟩
  | cancelOp now =>
      simp only [NftStream.exec, NftStream.cancel_stream]
      split
      next s1 tr heq =>
        split at heq
        · simp at heq
        · simp only [Except.ok.injEq, Prod.mk.injEq] at heq
          obtain ⟨h1, -⟩ := heq
          subst h1
          exact ⟨⟨hw0, hwt, fun hst => by simp at hst⟩, hpos, hse⟩
      next => exact ⟨⟨hw0, hwt, hcompl⟩, hpos, hse⟩

/-- Claim C7: after every public operation every stored stream satisfies
`0 ≤ withdrawn_amount ≤ total_amount` and `Completed → withdrawn_amount =
total_amount`: creation establishes the invariant (together with the
well-formedness `0 < total_amount` and `start_time < end_time` it relies
on), and every operation — singly or in sequence — preserves it, in both
contracts. -/
theorem c7_stream_invariants (op : PaymentStream.Op) (p : PaymentStream.Stream)
    (ops : List PaymentStream.Op) (nop : NftStream.Op)
    (q : NftStream.Stream × NftStream.StreamOwnershipRecord)
    (nops : List NftStream.Op)
    (hpW : PaymentStream.WF p) (hpI : PaymentStream.Inv p)
    (hqW : NftStream.WF q.1) (hqI : NftStream.Inv q.1) :
    PaymentStream.Inv (PaymentStream.exec op p) ∧
    PaymentStream.Inv (PaymentStream.execList ops p) ∧
    NftStream.Inv (NftStream.exec nop q).1 ∧
    NftStream.Inv (NftStream.execList nops q).1 ∧
    (∀ sender recipient token total start endT sc st tr,
      PaymentStream.create_stream sender recipient token total start endT sc
          = .ok (st, tr) →
      PaymentStream.Inv st ∧ PaymentStream.WF st) ∧
    (∀ sender recipient token total start endT tfer now sc oc st r0 tr,
      NftStream.create_stream sender recipient token total start endT tfer now sc oc
          = .ok (st, r0, tr) →
      NftStream.Inv st ∧ NftStream.WF st) := by
  refine ⟨(pay_exec_preserves op p hpW hpI).1, ?_,
    (nft_exec_preserves nop q hqW hqI).1, ?_, ?_, ?_⟩
  · clear hqW hqI
    induction ops generalizing p with
    | nil => exact hpI
    | cons o os ih =>
        have h := pay_exec_preserves o p hpW hpI
        exact ih (PaymentStream.exec o p) h.2 h.1
  · clear hpW hpI
    induction nops generalizing q with
    | nil => exact hqI
    | cons o os ih =>
        have h := nft_exec_preserves o q hqW hqI
        exact ih (NftStream.exec o q) h.2 h.1
  · intro sender recipient token total start endT sc st tr h
    simp only [PaymentStream.create_stream] at h
    split at h
    · simp at h
    next h1 =>
      split at h
      · simp at h
      next h2 =>
        rw [not_le] at h1 h2
        simp only [Except.ok.injEq, Prod.mk.injEq] at h
        obtain ⟨hst, -⟩ := h
        subst hst
        exact ⟨⟨le_refl 0, le_of_lt h1, fun hc => by simp at hc⟩, h1, h2⟩
  · intro sender recipient token total start endT tfer now sc oc st r0 tr h
    simp only [NftStream.create_stream, NftStream.mint_ownership_record] at h
    split at h
    · simp at h
    next h1 =>
      split at h
      · simp at h
      next h2 =>
        split at h
        · simp at h
        next h3 =>
          rw [not_le] at h1
          rw [ge_iff_le, not_le] at h2
          simp only [Except.ok.injEq, Prod.mk.injEq] at h
          obtain ⟨hst, -⟩ := h
          subst hst
          exact ⟨⟨le_refl 0, le_of_lt h1, fun hc => by simp at hc⟩, h1, h2⟩

/-- Witness for `c7_stream_invariants` at concrete inputs. -/
theorem c7_stream_invariants_witness :
    PaymentStream.Inv (PaymentStream.exec (.withdrawOp 50 300) exPayFresh) ∧
    NftStream.Inv (NftStream.exec (.claimOp 50) (exNftFresh, exRecord)).1 := by
  have h := c7_stream_invariants (.withdrawOp 50 300) exPayFresh []
    (.claimOp 50) (exNftFresh, exRecord) []
    (by constructor <;> decide)
    (by exact ⟨by decide, by decide, fun hc => by simp [exPayFresh] at hc⟩)
    (by constructor <;> decide)
    (by exact ⟨by decide, by decide, fun hc => by simp [exNftFresh] at hc⟩)
  exact ⟨h.1, h.2.2.1⟩

/-- Counterexample to claim C8: the claim says a transfer on a stream with
`transferable == false` fails with `StreamNotTransferable` regardless of
anything else, but nft-stream checks the status first: on a `Canceled`
non-transferable stream the transfer fails with `StreamNotActive`, not
`StreamNotTransferable`. -/
theorem c8_counterexample_error_precedence :
    NftStream.transfer_stream exNftCanceledNT exRecord 7 = .error .StreamNotActive ∧
    NftStream.transfer_stream exNftCanceledNT exRecord 7 ≠ .error .StreamNotTransferable := by
  exact ⟨by decide, by decide⟩

/-- Claim C8 (amended): `transfer_stream` succeeds exactly when the stream is
`Active` and transferable; it fails with `StreamNotActive` whenever the
status is not `Active` (this check comes first), and with
`StreamNotTransferable` when the stream is `Active` but not transferable.
On success both the stream's `recipient` and the deed's `owner` become the
new owner, so the two stay in sync; authorization is demanded of the current
deed owner (`ownership_record.owner.require_auth()` in the source), not of
the original recipient. -/
theorem c8_transfer_gating (s : NftStream.Stream)
    (r : NftStream.StreamOwnershipRecord) (a : Address) :
    (s.status ≠ .Active →
      NftStream.transfer_stream s r a = .error .StreamNotActive) ∧
    (s.status = .Active → s.transferable = false →
      NftStream.transfer_stream s r a = .error .StreamNotTransferable) ∧
    (s.status = .Active → s.transferable = true →
      NftStream.transfer_stream s r a =
        .ok ({ s with recipient := a }, { r with owner := a })) ∧
    (∀ s' r', NftStream.transfer_stream s r a = .ok (s', r') →
      s'.recipient = a ∧ r'.owner = a) := by
  refine ⟨?_, ?_, ?_, ?_⟩
  · intro h
    simp [NftStream.transfer_stream, h]
  · intro h1 h2
    simp [NftStream.transfer_stream, h1, h2]
  · intro h1 h2
    simp [NftStream.transfer_stream, h1, h2]
  · intro s' r' h
    simp only [NftStream.transfer_stream] at h
    split at h
    · simp at h
    · split at h
      · simp at h
      · simp only [Except.ok.injEq, Prod.mk.injEq] at h
        obtain ⟨h1, h2⟩ := h
        subst h1
        subst h2
        exact ⟨rfl, rfl⟩

/-- Witness for `c8_transfer_gating` at concrete inputs. -/
theorem c8_transfer_gating_witness :
    NftStream.transfer_stream exNftPaused exRecord 7 = .error .StreamNotActive ∧
    NftStream.transfer_stream { exNftFresh with transferable := false } exRecord 7
        = .error .StreamNotTransferable ∧
    NftStream.transfer_stream exNftFresh exRecord 7
        = .ok ({ exNftFresh with recipient := 7 }, { exRecord with owner := 7 }) := by
  refine ⟨(c8_transfer_gating exNftPaused exRecord 7).1 (by decide),
    (c8_transfer_gating { exNftFresh with transferable := false } exRecord 7).2.1
      (by decide) (by decide),
    (c8_transfer_gating exNftFresh exRecord 7).2.2.1 (by decide) (by decide)⟩

/-- An `Active` stream with nothing claimable rejects `claim` with
`NoTokensToClaim`. -/
theorem nft_claim_zero_claimable (s : NftStream.Stream)
    (r : NftStream.StreamOwnershipRecord) (now : Nat)
    (hact : s.status = .Active)
    (hc0 : NftStream.calculate_claimable s now ≤ 0) :
    NftStream.claim s r now = .error .NoTokensToClaim := by
  simp only [NftStream.claim]
  rw [if_neg (by simp [hact]), if_pos hc0]

/-- Counterexample to claim C10: the claim says the second claim at the same
timestamp fails with `NoTokensToClaim`, but if the first claim completes the
stream (here: claiming at `now = end_time`) the second claim fails with
`StreamNotActive` instead. -/
theorem c10_counterexample_second_claim_completed :
    NftStream.claim exNftFresh exRecord 100 =
      .ok ({ exNftFresh with withdrawn_amount := 1000, status := .Completed },
           ⟨contractAddress, 2, 1000⟩) ∧
    NftStream.claim { exNftFresh with withdrawn_amount := 1000, status := .Completed }
        exRecord 100 = .error .StreamNotActive ∧
    NftStream.claim { exNftFresh with withdrawn_amount := 1000, status := .Completed }
        exRecord 100 ≠ .error .NoTokensToClaim := by
  exact ⟨by decide, by decide, by decide⟩

/-- Claim C10 (amended): immediately after a successful claim the stream's
`withdrawn_amount` equals the vested amount at the current timestamp, so the
claimable amount at that timestamp is 0; the stream is left `Active` or
`Completed`, and a second claim at the same timestamp fails — with
`NoTokensToClaim` when the stream stayed `Active`, and with `StreamNotActive`
when the first claim completed it — leaving the stream unchanged. -/
theorem c10_claim_resets_claimable (s : NftStream.Stream)
    (r : NftStream.StreamOwnershipRecord) (now : Nat)
    (s' : NftStream.Stream) (tr : Transfer)
    (h : NftStream.claim s r now = .ok (s', tr)) :
    s'.withdrawn_amount = NftStream.calculate_vested s' now ∧
    NftStream.calculate_claimable s' now = 0 ∧
    (s'.status = .Active ∨ s'.status = .Completed) ∧
    (s'.status = .Active →
      NftStream.claim s' r now = .error .NoTokensToClaim) ∧
    (s'.status = .Completed →
      NftStream.claim s' r now = .error .StreamNotActive) := by
  simp only [NftStream.claim, NftStream.calculate_claimable] at h
  split at h
  · simp at h
  next hact =>
    rw [not_not] at hact
    split at h
    · simp at h
    next hc =>
      rw [not_le] at hc
      split at h
      next hcmp =>
        simp only [Except.ok.injEq, Prod.mk.injEq] at h
        obtain ⟨h1, -⟩ := h
        subst h1
        have hw : (s.withdrawn_amount +
              (NftStream.calculate_vested s now - s.withdrawn_amount))
            = NftStream.calculate_vested s now := by ring
        refine ⟨hw, ?_, Or.inr rfl, ?_, ?_⟩
        · show NftStream.calculate_vested s now -
            (s.withdrawn_amount +
              (NftStream.calculate_vested s now - s.withdrawn_amount)) = 0
          ring
        · intro hst
          simp at hst
        · intro _
          simp [NftStream.claim]
      next hcmp =>
        simp only [Except.ok.injEq, Prod.mk.injEq] at h
        obtain ⟨h1, -⟩ := h
        subst h1
        have hw : (s.withdrawn_amount +
              (NftStream.calculate_vested s now - s.withdrawn_amount))
            = NftStream.calculate_vested s now := by ring
        have hc0 : NftStream.calculate_claimable
            { s with withdrawn_amount := s.withdrawn_amount +
                (NftStream.calculate_vested s now - s.withdrawn_amount) } now
            = 0 := by
          show NftStream.calculate_vested s now -
            (s.withdrawn_amount +
              (NftStream.calculate_vested s now - s.withdrawn_amount)) = 0
          ring
        refine ⟨hw, hc0, Or.inl hact, ?_, ?_⟩
        · intro _
          exact nft_claim_zero_claimable _ r now hact (le_of_eq hc0)
        · intro hst
          rw [show ({ s with withdrawn_amount := s.withdrawn_amount +
              (NftStream.calculate_vested s now - s.withdrawn_amount) } :
                NftStream.Stream).status = s.status from rfl, hact] at hst
          simp at hst

/-- Witness for `c10_claim_resets_claimable`: claiming at time 50 on the
fresh 1000-over-[0,100) stream. -/
theorem c10_claim_resets_claimable_witness :
    NftStream.calculate_claimable { exNftFresh with withdrawn_amount := 500 } 50 = 0 ∧
    NftStream.claim { exNftFresh with withdrawn_amount := 500 } exRecord 50
        = .error .NoTokensToClaim := by
  have h := c10_claim_resets_claimable exNftFresh exRecord 50
    { exNftFresh with withdrawn_amount := 500 } ⟨contractAddress, 2, 500⟩
    (by decide)
  exact ⟨h.2.1, h.2.2.2.1 (by decide)⟩

end StellarClient
